import Mathlib

/-!
Verification of the storage/concurrency core of the bustub_jc repository:
the LRU-K replacer, the buffer pool manager, the B+Tree leaf operations and
forward iterator, and the hierarchical lock manager.  Each definition is a
shallow embedding of the corresponding C++ function; theorems settle the
frozen claims about them.
-/

namespace BusTub

/-! ## Lock manager: basic types (concurrency/lock_manager.cpp) -/

/-- The five lock modes of the hierarchical lock manager
(`SHARED`, `EXCLUSIVE`, `INTENTION_SHARED`, `INTENTION_EXCLUSIVE`,
`SHARED_INTENTION_EXCLUSIVE`). -/
inductive LockMode where
  | S | X | IS | IX | SIX
  deriving DecidableEq, Repr, Fintype

/-- Transaction isolation levels. -/
inductive IsolationLevel where
  | readUncommitted | readCommitted | repeatableRead
  deriving DecidableEq, Repr, Fintype

/-- Transaction states of the two-phase-locking state machine. -/
inductive TxnState where
  | growing | shrinking | committed | aborted
  deriving DecidableEq, Repr, Fintype

/-- Typed abort reasons carried by `TransactionAbortException`. -/
inductive AbortReason where
  | lockOnShrinking
  | lockSharedOnReadUncommitted
  | upgradeConflict
  | incompatibleUpgrade
  | attemptedIntentionLockOnRow
  | tableLockNotPresent
  | attemptedUnlockButNoLockHeld
  | tableUnlockedBeforeUnlockingRows
  deriving DecidableEq, Repr, Fintype

/-- Isolation-level policing prefix of `LockManager::LockTable`
(part_007 lines 225–257): the sequence of state/isolation checks run before
the queue is consulted.  Returns the transaction state after the checks
together with the abort reason thrown, or `none` when the call proceeds.
Every throw site first sets the state to `ABORTED`, which is mirrored here. -/
def lockTablePolice (st : TxnState) (iso : IsolationLevel) (m : LockMode) :
    TxnState × Option AbortReason :=
  if st = .shrinking then
    if iso = .repeatableRead then (.aborted, some .lockOnShrinking)
    else if iso = .readCommitted ∧ (m = .X ∨ m = .IX ∨ m = .SIX) then
      (.aborted, some .lockOnShrinking)
    else if iso = .readUncommitted then
      if m = .X ∨ m = .IX then (.aborted, some .lockOnShrinking)
      else (.aborted, some .lockSharedOnReadUncommitted)
    else (st, none)
  else if st = .growing ∧ iso = .readUncommitted ∧ (m = .S ∨ m = .IS ∨ m = .SIX) then
    (.aborted, some .lockSharedOnReadUncommitted)
  else (st, none)

/-- Policing prefix of `LockManager::LockRow` (part_007 lines 388–423):
the intention-mode rejection runs first, then the same state/isolation
checks as for tables with the row-specific mode sets. -/
def lockRowPolice (st : TxnState) (iso : IsolationLevel) (m : LockMode) :
    TxnState × Option AbortReason :=
  if m = .IS ∨ m = .SIX ∨ m = .IX then
    (.aborted, some .attemptedIntentionLockOnRow)
  else if st = .shrinking then
    if iso = .repeatableRead then (.aborted, some .lockOnShrinking)
    else if iso = .readCommitted ∧ m = .X then (.aborted, some .lockOnShrinking)
    else if iso = .readUncommitted then
      if m = .X then (.aborted, some .lockOnShrinking)
      else (.aborted, some .lockSharedOnReadUncommitted)
    else (st, none)
  else if st = .growing ∧ iso = .readUncommitted ∧ m = .S then
    (.aborted, some .lockSharedOnReadUncommitted)
  else (st, none)

/-! ## Lock manager: the upgrade segment of LockTable/LockRow -/

/-- One entry of a lock request queue.  Requests created by
`LockTable`/`LockRow` start ungranted (the `LockRequest` constructor is
declared in a header that is not under src/; Modelled from the spec: a
request is granted only by admission). -/
structure LockRequest where
  txnId : Int
  mode : LockMode
  granted : Bool
  deriving DecidableEq, Repr

/-- The sentinel `INVALID_TXN_ID`, stored in a queue's `upgrading_` field
when no transaction is upgrading. -/
def invalidTxnId : Int := -1

/-- Modelled from the spec: the body of `LockManager::CanLockUpgrade` is not
under src/; the spec's upgrade lattice is
`IS → {S, X, IX, SIX}`, `S → {X, SIX}`, `IX → {X, SIX}`, `SIX → X`. -/
def canLockUpgrade : LockMode → LockMode → Bool
  | .IS, .S | .IS, .X | .IS, .IX | .IS, .SIX => true
  | .S, .X | .S, .SIX => true
  | .IX, .X | .IX, .SIX => true
  | .SIX, .X => true
  | _, _ => false

/-- The scan of the request queue for the calling transaction's own request
(the `for` loop of part_007 lines 280–303): returns the queue with that
request erased together with the request itself, or `none` when the
transaction has no request in the queue. -/
def eraseTxn (t : Int) : List LockRequest → Option (List LockRequest × LockRequest)
  | [] => none
  | r :: rs =>
    if r.txnId = t then some (rs, r)
    else (eraseTxn t rs).map fun p => (r :: p.1, p.2)

/-- Insertion of the upgraded request before the first ungranted entry
(part_007 lines 307–325): scan for the first request with `granted_ = false`
and insert before it; if every request is granted, insert at the end. -/
def insertBeforeFirstUngranted (nr : LockRequest) : List LockRequest → List LockRequest
  | [] => [nr]
  | r :: rs => if !r.granted then nr :: r :: rs else r :: insertBeforeFirstUngranted nr rs

/-- Outcome of the upgrade segment, up to (and excluding) the admission
wait loop. -/
inductive UpgradeOutcome where
  /-- the `assert(lock_request->granted_ == true)` failed -/
  | assertViolation
  /-- the function returned the given boolean immediately (`return false;`
  on an identical-mode re-request) -/
  | earlyReturn (ret : Bool)
  /-- the transaction was set to `ABORTED` and a
  `TransactionAbortException` with this reason was thrown -/
  | abort (r : AbortReason)
  /-- the request was placed in the queue and the call proceeds to the
  admission loop: new queue, new `upgrading_` id, and the transaction's
  held-lock multiset for this resource -/
  | proceed (queue : List LockRequest) (upgrading : Int) (held : List LockMode)
  deriving DecidableEq, Repr

/-- The upgrade segment of `LockManager::LockTable` (part_007 lines
277–329); `LockManager::LockRow` contains the textually identical segment
(lines 447–498).  `q`/`upg` are the queue contents and `upgrading_` id,
`held` the calling transaction's held-lock modes on this resource
(`TxnTableLockDelete`/`TxnRowLockDelete` remove the old mode from it;
their bodies are not under src/ — Modelled from the spec: the held set is
"the multi-set of locks currently held", from which the old grant is
removed). -/
def upgradeSegment (q : List LockRequest) (upg : Int) (held : List LockMode)
    (t : Int) (m : LockMode) : UpgradeOutcome :=
  match eraseTxn t q with
  | none => .proceed (q ++ [⟨t, m, false⟩]) upg held
  | some (q', old) =>
    if old.granted = false then .assertViolation
    else if old.mode = m then .earlyReturn false
    else if upg ≠ invalidTxnId then .abort .upgradeConflict
    else if ¬ canLockUpgrade old.mode m then .abort .incompatibleUpgrade
    else .proceed (insertBeforeFirstUngranted ⟨t, m, false⟩ q') t (held.erase old.mode)

/-! ## LRU-K replacer (buffer/lru_k_replacer.cpp) -/

/-- Per-frame replacer node: access history (most recent first) and the
evictable flag.  The `LRUKNode` class body is not under src/ — Modelled
from the spec: "Per-frame access history as a bounded deque of timestamps
(capacity `K`) plus an `evictable` flag"; a freshly tracked frame starts
non-evictable. -/
structure LRUKNode where
  hist : List Nat
  evictable : Bool
  deriving DecidableEq, Repr

/-- Modelled from the spec (the body of `LRUKNode::PushFront` is not under src/:
"append current timestamp to the frame's history (evict oldest beyond
`K`)"): prepend the timestamp and keep the `k` most recent. -/
def LRUKNode.pushFront (k : Nat) (n : LRUKNode) (ts : Nat) : LRUKNode :=
  { n with hist := (ts :: n.hist).take k }

/-- Modelled from the spec (the body of `LRUKNode::BackK` is not under src/:
backward K-distance is infinite with fewer than `K` accesses): the K-th
most recent timestamp, or `0` — no valid timestamp, they start at 1 —
when fewer than `k` accesses are recorded.  `RecordAccess` tests this
against `0` to decide pool migration. -/
def LRUKNode.backK (k : Nat) (n : LRUKNode) : Nat :=
  if n.hist.length < k then 0 else n.hist.getD (k - 1) 0

/-- State of `LRUKReplacer`: `node_store_` as an association list,
`temp_pool_` (young frames, front = oldest inserted), `cache_pool_` as the
list of `(frame, backK)` pairs the code keeps sorted ascending by the
second component, and the `size_t` counter `evictable_size_`.  The
`*_pool_map_` iterator caches are positional bookkeeping and are
represented by the lists themselves. -/
structure LRUKReplacer where
  k : Nat
  replacerSize : Nat
  currentTimestamp : Nat
  nodeStore : List (Nat × LRUKNode)
  tempPool : List Nat
  cachePool : List (Nat × Nat)
  evictableSize : Nat
  deriving DecidableEq, Repr

/-- The replacer as constructed: empty pools, timestamp 0. -/
def initReplacer (numFrames k : Nat) : LRUKReplacer :=
  ⟨k, numFrames, 0, [], [], [], 0⟩

/-- Dereference `node_store_[f]`: the node stored for frame `f` (the code
only dereferences frames present in the store). -/
def getNode (store : List (Nat × LRUKNode)) (f : Nat) : LRUKNode :=
  (store.lookup f).getD ⟨[], false⟩

/-- Erasure `node_store_.erase(f)`. -/
def eraseNode (store : List (Nat × LRUKNode)) (f : Nat) : List (Nat × LRUKNode) :=
  store.eraseP (fun p => p.1 == f)

/-- In-place update of the node stored for frame `f`. -/
def storeSet (store : List (Nat × LRUKNode)) (f : Nat) (n : LRUKNode) :
    List (Nat × LRUKNode) :=
  store.map fun p => if p.1 = f then (f, n) else p

/-- Decrement of the `size_t` counter `evictable_size_`, with the wrap of
unsigned arithmetic. -/
def decSizeT (n : Nat) : Nat := (n + (2 ^ 64 - 1)) % 2 ^ 64

/-- Embeds `LRUKReplacer::Evict` (lru_k_replacer.cpp lines 26–57): return
immediately when the evictable counter is zero; otherwise scan the young
pool in insertion order, then the cache pool in list order, and evict the
first evictable frame, deleting its pool entry and node. -/
def evict (s : LRUKReplacer) : Option (Nat × LRUKReplacer) :=
  if s.evictableSize = 0 then none
  else
    match s.tempPool.find? (fun f => (getNode s.nodeStore f).evictable) with
    | some f =>
      some (f, { s with
        tempPool := s.tempPool.erase f
        nodeStore := eraseNode s.nodeStore f
        evictableSize := decSizeT s.evictableSize })
    | none =>
      match s.cachePool.find? (fun p => (getNode s.nodeStore p.1).evictable) with
      | some p =>
        some (p.1, { s with
          cachePool := s.cachePool.eraseP (fun q => q.1 == p.1)
          nodeStore := eraseNode s.nodeStore p.1
          evictableSize := decSizeT s.evictableSize })
      | none => none

/-- The `std::upper_bound` insertion into `cache_pool_` (lru_k_replacer.cpp
lines 87–91 and 98–102): the new pair goes before the first entry whose
key is strictly larger, i.e. after every entry with key `≤ backk`. -/
def cacheInsert (p : Nat × Nat) : List (Nat × Nat) → List (Nat × Nat)
  | [] => [p]
  | q :: qs => if p.2 < q.2 then p :: q :: qs else q :: cacheInsert p qs

/-- Embeds `LRUKReplacer::RecordAccess` (lru_k_replacer.cpp lines 59–104).
`none` models the `BUSTUB_ENSURE(frame_id <= replacer_size_)` failure.
A new frame is tracked in the young pool; a known frame gets the
timestamp pushed, and when its backward-K timestamp becomes non-zero it
moves from the young pool into the cache pool at its sorted position (a
frame already in the cache pool is re-inserted at its new position).
(A state whose frame is tracked but in neither pool would dereference an
invalid iterator in the C++; such states do not arise.) -/
def recordAccess (s : LRUKReplacer) (f : Nat) : Option LRUKReplacer :=
  if ¬ f ≤ s.replacerSize then none
  else
    let ts := s.currentTimestamp + 1
    match s.nodeStore.lookup f with
    | none =>
      some { s with
        currentTimestamp := ts
        nodeStore := (f, (LRUKNode.mk [] false).pushFront s.k ts) :: s.nodeStore
        tempPool := s.tempPool ++ [f] }
    | some node =>
      let node' := node.pushFront s.k ts
      let backk := node'.backK s.k
      let store' := storeSet s.nodeStore f node'
      if f ∈ s.tempPool then
        if backk ≠ 0 then
          some { s with
            currentTimestamp := ts
            nodeStore := store'
            tempPool := s.tempPool.erase f
            cachePool := cacheInsert (f, backk) s.cachePool }
        else
          some { s with currentTimestamp := ts, nodeStore := store' }
      else
        some { s with
          currentTimestamp := ts
          nodeStore := store'
          cachePool := cacheInsert (f, backk) (s.cachePool.eraseP (fun q => q.1 == f)) }

/-- Embeds `LRUKReplacer::SetEvictable` (lru_k_replacer.cpp lines 106–121);
`none` models the `BUSTUB_ENSURE` failure; an untracked frame is a
no-op. -/
def setEvictable (s : LRUKReplacer) (f : Nat) (b : Bool) : Option LRUKReplacer :=
  if ¬ f ≤ s.replacerSize then none
  else
    match s.nodeStore.lookup f with
    | none => some s
    | some node =>
      if node.evictable ∧ ¬ b then
        some { s with
          nodeStore := storeSet s.nodeStore f { node with evictable := b }
          evictableSize := decSizeT s.evictableSize }
      else if ¬ node.evictable ∧ b then
        some { s with
          nodeStore := storeSet s.nodeStore f { node with evictable := b }
          evictableSize := (s.evictableSize + 1) % 2 ^ 64 }
      else some s

/-- Result of `LRUKReplacer::Remove`. -/
inductive RemoveResult where
  /-- normal return, with the resulting state (untracked frames return
  without mutation) -/
  | ok (s : LRUKReplacer)
  /-- the `BUSTUB_ENSURE(frame_ptr->GetEvictable() == false, ...)` failed:
  an exception is thrown and nothing is mutated -/
  | ensureViolation
  deriving DecidableEq, Repr

/-- Embeds `LRUKReplacer::Remove` (lru_k_replacer.cpp lines 123–144): an
untracked frame is ignored; a tracked frame passes
`BUSTUB_ENSURE(GetEvictable() == false, "Remove is called on a
non-evictable frame")` — i.e. the call throws precisely when the frame IS
evictable — and is then erased from both pools and the store, with the
evictable counter decremented unconditionally. -/
def removeFrame (s : LRUKReplacer) (f : Nat) : RemoveResult :=
  match s.nodeStore.lookup f with
  | none => .ok s
  | some node =>
    if node.evictable = false then
      .ok { s with
        tempPool := s.tempPool.erase f
        cachePool := s.cachePool.eraseP (fun q => q.1 == f)
        nodeStore := eraseNode s.nodeStore f
        evictableSize := decSizeT s.evictableSize }
    else .ensureViolation

/-- The order in which `Evict` scans frames: the young pool in insertion
order, then the cache pool in list order. -/
def scanOrder (s : LRUKReplacer) : List Nat :=
  s.tempPool ++ s.cachePool.map Prod.fst

/-- Deletion of all replacer state of frame `f` (what `Evict` performs on
the victim). -/
def deleteFrame (s : LRUKReplacer) (f : Nat) : LRUKReplacer :=
  { s with
    tempPool := s.tempPool.erase f
    cachePool := s.cachePool.eraseP (fun q => q.1 == f)
    nodeStore := eraseNode s.nodeStore f
    evictableSize := decSizeT s.evictableSize }

/-- Consistency of a replacer state: no duplicate pool entries or store
keys, the two pools are disjoint, and a zero evictable counter means no
tracked frame is evictable. -/
def ReplacerWF (s : LRUKReplacer) : Prop :=
  s.tempPool.Nodup ∧ (s.cachePool.map Prod.fst).Nodup ∧
    (s.nodeStore.map Prod.fst).Nodup ∧
    (∀ f ∈ s.tempPool, f ∉ s.cachePool.map Prod.fst) ∧
    (s.evictableSize = 0 →
      ∀ f ∈ scanOrder s, (getNode s.nodeStore f).evictable = false)

instance (s : LRUKReplacer) : Decidable (ReplacerWF s) := by
  unfold ReplacerWF; infer_instance

/-- The sort invariant of `cache_pool_`: ascending in the stored backward-K
timestamp. -/
def CacheSorted (l : List (Nat × Nat)) : Prop :=
  l.Pairwise (fun a b => a.2 ≤ b.2)

/-- The frame an `Evict` call on the given (optional) state returns. -/
def evictedFrame (s : Option LRUKReplacer) : Option Nat :=
  s.bind fun t => (evict t).map Prod.fst

/-- The replacer state after an `Evict` call on the given (optional)
state. -/
def afterEvict (s : Option LRUKReplacer) : Option LRUKReplacer :=
  s.bind fun t => (evict t).map Prod.snd

/-- The spec's literal LRU-K scenario: `N = 3`, `K = 2`, accesses
`A, B, C, A, B, C` (frames 0, 1, 2), then all marked evictable. -/
def lrukScenario : Option LRUKReplacer :=
  (recordAccess (initReplacer 3 2) 0).bind fun s =>
  (recordAccess s 1).bind fun s =>
  (recordAccess s 2).bind fun s =>
  (recordAccess s 0).bind fun s =>
  (recordAccess s 1).bind fun s =>
  (recordAccess s 2).bind fun s =>
  (setEvictable s 0 true).bind fun s =>
  (setEvictable s 1 true).bind fun s =>
  setEvictable s 2 true

/-- The state `lrukScenario` reaches (all three frames have two accesses,
so the young pool is empty and the cache pool is sorted by second-most
recent timestamp). -/
def lrukScenarioState : LRUKReplacer :=
  ⟨2, 3, 6,
    [(2, ⟨[6, 3], true⟩), (1, ⟨[5, 2], true⟩), (0, ⟨[4, 1], true⟩)],
    [], [(0, 1), (1, 2), (2, 3)], 3⟩

/-! ## B+Tree leaf pages (b_plus_tree_leaf_page.cpp, in index_iterator.cpp's
translation unit) -/

/-- A leaf page: the live entries `array_[0..size)` as a list (so
`GetSize()` is the list length), `max_size_`, `next_page_id_`, and
`junkPre` — the memory word immediately before `array_`, i.e. the page
header bytes reinterpreted as a `(key, value)` pair.  The unguarded
duplicate check of `Insert` reads `array_[index - 1]` even at
`index = 0`, which lands on this word. -/
structure LeafData where
  entries : List (Int × Int)
  maxSize : Int
  next : Int
  junkPre : Int × Int
  deriving DecidableEq, Repr

/-- Access `array_[i]`: a live slot for `0 ≤ i < size`; the header word at
`i = -1`; reads outside the live region return unspecified stale bytes
(represented by the same junk word — no verified code path reads them). -/
def leafEntry (l : LeafData) (i : Int) : Int × Int :=
  if i < 0 then l.junkPre else l.entries.getD i.toNat l.junkPre

/-- Embeds `GetSize()`. -/
def leafSize (l : LeafData) : Int := l.entries.length

/-- Modelled from the spec: the `BPlusTreePage` base-class bodies (here
`GetMinSize()`) are not under src/; the spec fixes `min_size = ⌈max_size / 2⌉`. -/
def leafMinSize (l : LeafData) : Int := (l.maxSize + 1) / 2

/-- Embeds `B_PLUS_TREE_LEAF_PAGE_TYPE::Init(max_size)`: size 0, next
`INVALID_PAGE_ID`; the junk word is whatever the page buffer held. -/
def leafInit (maxSize : Int) (junk : Int × Int) : LeafData :=
  ⟨[], maxSize, -1, junk⟩

/-- The lower-bound binary-search loop shared by `ValueAtKey`, `KetIndex`
and `RemoveRecord`: `while (l < r) { mid = (l+r)>>1; if (a[mid] >= key)
r = mid; else l = mid+1; }`.  The fuel argument counts the at most
`r − l` loop iterations; with `(r - l).toNat` fuel it is the loop
verbatim. -/
def lbLoopAux (leaf : LeafData) (key : Int) : Nat → Int → Int → Int
  | 0, l, _ => l
  | fuel + 1, l, r =>
    if l < r then
      let mid := (l + r) / 2
      if (leafEntry leaf mid).1 ≥ key then lbLoopAux leaf key fuel l mid
      else lbLoopAux leaf key fuel (mid + 1) r
    else l

/-- Lower-bound search over `[l, r)` as the loops run it. -/
def lbSearch (leaf : LeafData) (key : Int) (l r : Int) : Int :=
  lbLoopAux leaf key (r - l).toNat l r

/-- The upper-bound binary-search loop of `Insert`: the branch condition
is `comparator_(a[mid], key) > 0`, i.e. `a[mid] > key`. -/
def ubLoopAux (leaf : LeafData) (key : Int) : Nat → Int → Int → Int
  | 0, l, _ => l
  | fuel + 1, l, r =>
    if l < r then
      let mid := (l + r) / 2
      if (leafEntry leaf mid).1 > key then ubLoopAux leaf key fuel l mid
      else ubLoopAux leaf key fuel (mid + 1) r
    else l

/-- Upper-bound search over `[l, r)`. -/
def ubSearch (leaf : LeafData) (key : Int) (l r : Int) : Int :=
  ubLoopAux leaf key (r - l).toNat l r

/-- Embeds `B_PLUS_TREE_LEAF_PAGE_TYPE::ValueAtKey` (index_iterator.cpp lines
113–132): lower-bound search over `[0, size − 1]`; found iff the slot
compares equal (the `index == GetMaxSize()` guard is kept verbatim). -/
def valueAtKey (leaf : LeafData) (key : Int) : Option Int :=
  let idx := lbSearch leaf key 0 (leafSize leaf - 1)
  if idx = leaf.maxSize ∨ (leafEntry leaf idx).1 ≠ key then none
  else some (leafEntry leaf idx).2

/-- Embeds `B_PLUS_TREE_LEAF_PAGE_TYPE::Insert` (index_iterator.cpp lines
135–159): upper-bound search for the insertion slot `index`, then the
duplicate check `comparator_(array_[index - 1].first, key) == 0` — which
at `index = 0` reads the word before the array — then shift right and
write; the net effect of the shift loop and the slot write is insertion
at `index`.  `none` models `return false`. -/
def leafInsert (leaf : LeafData) (key v : Int) : Option LeafData :=
  let idx := ubSearch leaf key 0 (leafSize leaf)
  if (leafEntry leaf (idx - 1)).1 = key then none
  else some { leaf with
    entries := leaf.entries.take idx.toNat ++ (key, v) :: leaf.entries.drop idx.toNat }

/-- Embeds `B_PLUS_TREE_LEAF_PAGE_TYPE::RemoveRecord` (index_iterator.cpp lines
193–213): lower-bound search over `[0, size − 1]`; not found returns
false (`none`); otherwise the shift-left loop and size decrement delete
the slot. -/
def leafRemoveRecord (leaf : LeafData) (key : Int) : Option LeafData :=
  let idx := lbSearch leaf key 0 (leafSize leaf - 1)
  if (leafEntry leaf idx).1 ≠ key then none
  else some { leaf with
    entries := leaf.entries.take idx.toNat ++ leaf.entries.drop (idx.toNat + 1) }

/-- Embeds `B_PLUS_TREE_LEAF_PAGE_TYPE::Split` (index_iterator.cpp lines
161–172): copy slots `[min_size, max_size)` into the fresh leaf, set the
sizes to `min_size` and `max_size − min_size`, and return the new leaf's
first key. -/
def leafSplit (old nw : LeafData) : LeafData × LeafData × Int :=
  let minS := (leafMinSize old).toNat
  let cnt := (old.maxSize - leafMinSize old).toNat
  let nw' := { nw with entries := (old.entries.drop minS).take cnt }
  let old' := { old with entries := old.entries.take minS }
  (old', nw', (leafEntry nw' 0).1)

/-- The leaf-split segment of `BPLUSTREE_TYPE::Insert` (b_plus_tree.cpp
lines 131–154): outcome of inserting into the reached leaf. -/
inductive InsertStepResult where
  /-- `leaf_page->Insert` returned false: duplicate, `Insert` returns
  false -/
  | dup
  /-- inserted, post-insert size below `max_size`: no split -/
  | plain (leaf : LeafData)
  /-- post-insert size reached `max_size`: the leaf was split; `old` and
  `nw` are the two leaves after next-pointer wiring, `risen` the key
  passed to `InsertIntoParent` -/
  | split (old nw : LeafData) (risen : Int)
  deriving DecidableEq, Repr

/-- Whether an insert outcome performed a split. -/
def InsertStepResult.isSplit : InsertStepResult → Bool
  | .split _ _ _ => true
  | _ => false

/-- Embeds `BPLUSTREE_TYPE::Insert`, lines 131–154: insert into the leaf; on
post-insert size `== GetMaxSize()` allocate a new leaf page (`newPid`,
its buffer holding `newJunk` before the entry array), `Init` it, `Split`,
then wire `new_leaf->SetNextPageId(leaf->GetNextPageId());
leaf->SetNextPageId(new_page_id)`. -/
def insertIntoLeafStep (leaf : LeafData) (key v : Int) (newPid : Int)
    (newJunk : Int × Int) : InsertStepResult :=
  match leafInsert leaf key v with
  | none => .dup
  | some leaf' =>
    if leafSize leaf' = leaf'.maxSize then
      let s := leafSplit leaf' (leafInit leaf'.maxSize newJunk)
      .split { s.1 with next := newPid } { s.2.1 with next := leaf'.next } s.2.2
    else .plain leaf'

/-! ## The single-leaf B+Tree regime (root is a leaf) -/

/-- A B+Tree whose root is a leaf (or which is empty): the regime in
which `GetValue`, `Insert` and `Remove` exercise exactly the leaf-page
operations the claim cites.  `none` models a header page whose
`root_page_id_` is `INVALID_PAGE_ID`. -/
abbrev LeafTree := Option LeafData

/-- Embeds `BPLUSTREE_TYPE::GetValue` on a single-leaf tree (b_plus_tree.cpp
lines 50–73): empty tree returns false at the header check; otherwise the
descent reaches the root leaf and `ValueAtKey` decides. -/
def treeGetValue (t : LeafTree) (key : Int) : Option Int :=
  match t with
  | none => none
  | some leaf => valueAtKey leaf key

/-- Embeds `BPLUSTREE_TYPE::Insert` on a single-leaf tree (b_plus_tree.cpp lines
103–164).  On an empty tree a fresh root leaf is made and the first
record written positionally (`SetKeyValueAt(0, key, value)`; its body is
not under src/ — Modelled from the spec: "StartNewTree inserts the first
record by positional write rather than sorted insert; equivalent when
size was zero", so the root leaf holds the single record).  Otherwise the
reached leaf decides; the outer `none` marks a leaf split, which leaves
the single-leaf regime. -/
def treeInsert1 (t : LeafTree) (maxSize key v : Int) (newJunk : Int × Int) :
    Option (Bool × LeafTree) :=
  match t with
  | none => some (true, some ⟨[(key, v)], maxSize, -1, newJunk⟩)
  | some leaf =>
    match leafInsert leaf key v with
    | none => some (false, some leaf)
    | some leaf' =>
      if leafSize leaf' = leaf'.maxSize then none
      else some (true, some leaf')

/-- Embeds `BPLUSTREE_TYPE::Remove` on a single-leaf tree (b_plus_tree.cpp lines
261–293 with `RootAdjust`, lines 413–445): empty tree returns; a failed
`RemoveRecord` returns with no change; on success, a root leaf that fell
below `min_size` goes through `RootAdjust`, which empties the tree
exactly when the size reached 0. -/
def treeRemove1 (t : LeafTree) (key : Int) : LeafTree :=
  match t with
  | none => none
  | some leaf =>
    match leafRemoveRecord leaf key with
    | none => some leaf
    | some leaf' =>
      if leafSize leaf' < leafMinSize leaf' then
        if leafSize leaf' = 0 then none else some leaf'
      else some leaf'

/-! ## Buffer pool manager (buffer_pool_manager.cpp, part_007 lines 1–197) -/

/-- The reader–writer latch of a page. -/
inductive LatchState where
  | free
  | shared (readers : Nat)
  | exclusive
  deriving DecidableEq, Repr

/-- Contents of a page buffer: a B+Tree leaf image, or an uninterpreted
image. -/
inductive PageData where
  | leaf (l : LeafData)
  | raw (b : Int)
  deriving DecidableEq, Repr

/-- One frame of the `pages_` array. -/
structure BPMFrame where
  pageId : Int
  pinCount : Int
  isDirty : Bool
  latch : LatchState
  data : PageData
  deriving DecidableEq, Repr

/-- State of `BufferPoolManager`, with the disk and an I/O log
(`readLog`/`writeLog` record the page ids passed to
`disk_manager_->ReadPage`/`WritePage`, newest first). -/
structure BufferPoolManager where
  frames : List BPMFrame
  pageTable : List (Int × Nat)
  freeList : List Nat
  replacer : LRUKReplacer
  nextPageId : Int
  disk : List (Int × PageData)
  readLog : List Int
  writeLog : List Int
  deriving DecidableEq, Repr

/-- Access `pages_[fr]` (frames are always within the pool in the C++). -/
def getFrame (s : BufferPoolManager) (fr : Nat) : BPMFrame :=
  s.frames.getD fr ⟨-1, 0, false, .free, .raw 0⟩

/-- Embeds `disk_manager_->ReadPage`. -/
def diskRead (disk : List (Int × PageData)) (pid : Int) : PageData :=
  (disk.lookup pid).getD (.raw 0)

/-- Embeds `disk_manager_->WritePage`. -/
def diskWrite (disk : List (Int × PageData)) (pid : Int) (d : PageData) :
    List (Int × PageData) :=
  (pid, d) :: disk.eraseP (fun q => q.1 == pid)

/-- Embeds `BufferPoolManager::UnpinPage` (part_007 lines 106–120): false when
the page is absent or its pin count is not positive; otherwise decrement
the pin, mark the frame evictable when the pin reached zero, and assign
the dirty flag from the argument.  The outer `Option` carries the
replacer's internal `BUSTUB_ENSURE`. -/
def unpinPage (s : BufferPoolManager) (pid : Int) (dirty : Bool) :
    Option (Bool × BufferPoolManager) :=
  match s.pageTable.lookup pid with
  | none => some (false, s)
  | some fr =>
    let pg := getFrame s fr
    if pg.pinCount ≤ 0 then some (false, s)
    else
      (if pg.pinCount - 1 = 0 then setEvictable s.replacer fr true
       else some s.replacer).map fun repl =>
        (true, { s with
          frames := s.frames.set fr { pg with pinCount := pg.pinCount - 1, isDirty := dirty }
          replacer := repl })

/-- Embeds `BufferPoolManager::FetchPage` (part_007 lines 71–104).  The result's
first component is the returned `Page*` as a frame index (`none` =
`nullptr`).  A resident page just gains a pin; otherwise a frame is taken
from the free list, or an evicted victim is flushed if dirty and its old
mapping erased; the page is then read from disk into the frame, pinned,
and recorded non-evictable. -/
def fetchPage (s : BufferPoolManager) (pid : Int) :
    Option (Option Nat × BufferPoolManager) :=
  match s.pageTable.lookup pid with
  | some fr =>
    let pg := getFrame s fr
    some (some fr,
      { s with frames := s.frames.set fr { pg with pinCount := pg.pinCount + 1 } })
  | none =>
    if s.freeList.isEmpty ∧ s.replacer.evictableSize = 0 then some (none, s)
    else
      (match s.freeList with
       | fr :: rest => some (fr, { s with freeList := rest })
       | [] =>
         (evict s.replacer).map fun p =>
           let pg := getFrame s p.1
           let s₁ := { s with replacer := p.2 }
           let s₂ :=
             if pg.isDirty then
               { s₁ with
                 disk := diskWrite s₁.disk pg.pageId pg.data
                 writeLog := pg.pageId :: s₁.writeLog
                 frames := s₁.frames.set p.1 { pg with isDirty := false } }
             else s₁
           let pg₂ := getFrame s₂ p.1
           (p.1, { s₂ with
             frames := s₂.frames.set p.1 { pg₂ with data := .raw 0 }
             pageTable := s₂.pageTable.eraseP (fun q => q.1 == pg.pageId) }) :
        Option (Nat × BufferPoolManager)).bind
        fun p =>
          let pg := getFrame p.2 p.1
          let s' := { p.2 with
            frames := p.2.frames.set p.1
              { pg with pageId := pid, data := diskRead p.2.disk pid,
                        pinCount := pg.pinCount + 1 }
            pageTable := (pid, p.1) :: p.2.pageTable
            readLog := pid :: p.2.readLog }
          (recordAccess s'.replacer p.1).bind fun r1 =>
            (setEvictable r1 p.1 false).map fun r2 =>
              (some p.1, { s' with replacer := r2 })

/-- Embeds `BufferPoolManager::FetchPageRead` (part_007 lines 167–175): a page
id absent from the page table yields `{this, nullptr}` — an empty guard —
before any latch, pin or disk access; a resident page is read-latched
(blocking, modelled `none`, if write-latched) and then pinned via
`FetchPage`. -/
def fetchPageRead (s : BufferPoolManager) (pid : Int) :
    Option (Option Nat × BufferPoolManager) :=
  match s.pageTable.lookup pid with
  | none => some (none, s)
  | some fr =>
    let pg := getFrame s fr
    (match pg.latch with
     | .exclusive => none
     | .free => some (LatchState.shared 1)
     | .shared n => some (.shared (n + 1))).bind fun lat =>
      let s₁ := { s with frames := s.frames.set fr { pg with latch := lat } }
      (fetchPage s₁ pid).map fun r : Option Nat × BufferPoolManager => (some fr, r.2)

/-- Embeds `BufferPoolManager::FetchPageWrite` (part_007 lines 177–185):
identical shape with an exclusive latch. -/
def fetchPageWrite (s : BufferPoolManager) (pid : Int) :
    Option (Option Nat × BufferPoolManager) :=
  match s.pageTable.lookup pid with
  | none => some (none, s)
  | some fr =>
    let pg := getFrame s fr
    (match pg.latch with
     | .free => some LatchState.exclusive
     | _ => none).bind fun lat =>
      let s₁ := { s with frames := s.frames.set fr { pg with latch := lat } }
      (fetchPage s₁ pid).map fun r : Option Nat × BufferPoolManager => (some fr, r.2)

/-! ## B+Tree forward iterator (index_iterator.cpp lines 15–43) -/

/-- State of `IndexIterator`: `leaf_page_` is a raw pointer into a frame
buffer, represented by the frame index; `index_` is the slot. -/
structure IndexIterator where
  frame : Nat
  index : Int
  deriving DecidableEq, Repr

/-- The leaf image the iterator's `leaf_page_` pointer currently exposes
(reinterpreting a non-leaf buffer is meaningless and yields a dummy). -/
def iterLeaf (s : BufferPoolManager) (it : IndexIterator) : LeafData :=
  match (getFrame s it.frame).data with
  | .leaf l => l
  | .raw _ => ⟨[], 0, -1, (0, 0)⟩

/-- Embeds `IndexIterator::IsEnd` (index_iterator.cpp lines 22–25):
`GetNextPageId() == INVALID_PAGE_ID && index_ == GetSize()`. -/
def iterIsEnd (s : BufferPoolManager) (it : IndexIterator) : Bool :=
  (iterLeaf s it).next == -1 && it.index == leafSize (iterLeaf s it)

/-- Embeds `IndexIterator::operator++` (index_iterator.cpp lines 31–43): a no-op
at the end; otherwise advance the slot, and when it reaches the leaf size
with a valid next-pointer, fetch the next leaf into a *temporary*
`BasicPageGuard` whose destruction at the end of the statement immediately
unpins it (`Drop()` calls `UnpinPage(page_->GetPageId(), is_dirty_)` with
the guard's dirty flag still false), then point at the next leaf's frame
at slot 0.  `none` arises only if `FetchPage` returned `nullptr` (the C++
would dereference null). -/
def iterNext (s : BufferPoolManager) (it : IndexIterator) :
    Option (IndexIterator × BufferPoolManager) :=
  if iterIsEnd s it then some (it, s)
  else
    let idx := it.index + 1
    let leaf := iterLeaf s it
    if idx = leafSize leaf ∧ leaf.next ≠ -1 then
      (fetchPage s leaf.next).bind fun r =>
        match r.1 with
        | none => none
        | some fr2 =>
          (unpinPage r.2 (getFrame r.2 fr2).pageId false).map fun u =>
            (⟨fr2, 0⟩, u.2)
    else some ({ it with index := idx }, s)

/-- The buffer pool of the C9 counterexample: frame 0 holds leaf page 5
(`[1, 2]`, next = 6, pinned once — the pin the claim attributes to the
iterator), frame 1 holds leaf page 6 (`[3]`, no next, unpinned). -/
def iterDemoBPM : BufferPoolManager :=
  ⟨[⟨5, 1, false, .free, .leaf ⟨[(1, 10), (2, 20)], 4, 6, (0, 0)⟩⟩,
    ⟨6, 0, false, .free, .leaf ⟨[(3, 30)], 4, -1, (0, 0)⟩⟩],
   [(5, 0), (6, 1)], [], initReplacer 3 2, 7, [], [], []⟩

/-! ## Theorems -/

/-! ### Helper lemmas for the upgrade segment -/

theorem eraseTxn_append_cons (t : Int) (pre post : List LockRequest) (old : LockRequest)
    (hpre : ∀ r ∈ pre, r.txnId ≠ t) (ht : old.txnId = t) :
    eraseTxn t (pre ++ old :: post) = some (pre ++ post, old) := by
  induction pre with
  | nil => simp [eraseTxn, ht]
  | cons r rs ih =>
    have hr : r.txnId ≠ t := hpre r (by simp)
    simp only [List.cons_append, eraseTxn, if_neg hr, List.append_eq]
    rw [ih (fun x hx => hpre x (by simp [hx]))]
    simp

theorem insertBeforeFirstUngranted_eq (nr : LockRequest) (l : List LockRequest) :
    insertBeforeFirstUngranted nr l =
      l.takeWhile (·.granted) ++ nr :: l.dropWhile (·.granted) := by
  induction l with
  | nil => simp [insertBeforeFirstUngranted]
  | cons r rs ih =>
    by_cases hg : r.granted
    · simp [insertBeforeFirstUngranted, hg, List.takeWhile, List.dropWhile, ih]
    · simp [insertBeforeFirstUngranted, hg, List.takeWhile, List.dropWhile]

/-! ### Claims C5, C6, C7 -/

/-- C5 counterexample: the claim says that under `REPEATABLE_READ` any
`LockRow` call of a SHRINKING transaction aborts with `LOCK_ON_SHRINKING`;
but a `LockRow(IS)` call aborts with `ATTEMPTED_INTENTION_LOCK_ON_ROW`,
because the intention-mode rejection runs before the isolation policing. -/
theorem claim_C5_counterexample :
    (lockRowPolice .shrinking .repeatableRead .IS).2 =
        some .attemptedIntentionLockOnRow ∧
      some AbortReason.attemptedIntentionLockOnRow ≠ some AbortReason.lockOnShrinking := by
  decide

/-- C5 (amended): for a SHRINKING transaction, `LockTable` under
`REPEATABLE_READ` always aborts with `LOCK_ON_SHRINKING`, and `LockRow`
does so for the non-intention modes while intention modes abort with
`ATTEMPTED_INTENTION_LOCK_ON_ROW` (that check precedes the policing);
under `READ_COMMITTED` `LockTable` admits exactly `S`/`IS` (the rest abort
with `LOCK_ON_SHRINKING`) and `LockRow` admits exactly `S` (`X` aborts with
`LOCK_ON_SHRINKING`, intention modes with the intention reason); under
`READ_UNCOMMITTED` no request is admitted; and whenever the policing
aborts, the transaction state is `ABORTED`. -/
theorem claim_C5_shrinking_policing :
    (∀ m, (lockTablePolice .shrinking .repeatableRead m).2 = some .lockOnShrinking)
    ∧ (∀ m, (lockRowPolice .shrinking .repeatableRead m).2 =
        if m = .IS ∨ m = .IX ∨ m = .SIX then some .attemptedIntentionLockOnRow
        else some .lockOnShrinking)
    ∧ (∀ m, (lockTablePolice .shrinking .readCommitted m).2 =
        if m = .S ∨ m = .IS then none else some .lockOnShrinking)
    ∧ (∀ m, (lockRowPolice .shrinking .readCommitted m).2 =
        if m = .S then none
        else if m = .X then some .lockOnShrinking
        else some .attemptedIntentionLockOnRow)
    ∧ (∀ m, (lockTablePolice .shrinking .readUncommitted m).2 ≠ none)
    ∧ (∀ m, (lockRowPolice .shrinking .readUncommitted m).2 ≠ none)
    ∧ (∀ st iso m, (lockTablePolice st iso m).2 = none ∨
        (lockTablePolice st iso m).1 = .aborted)
    ∧ (∀ st iso m, (lockRowPolice st iso m).2 = none ∨
        (lockRowPolice st iso m).1 = .aborted) := by
  decide

/-- C6: when a transaction `t` already holds a granted request of mode
`old.mode` on a resource and requests a different mode `m`, the upgrade
segment aborts with `UPGRADE_CONFLICT` if the queue's `upgrading_` id is
set, aborts with `INCOMPATIBLE_UPGRADE` if `old.mode → m` is outside the
upgrade lattice, and otherwise removes the old granted request, inserts
the new (ungranted) request immediately before the first ungranted entry
of the remaining queue — at the end when all entries are granted — and
sets `upgrading_` to `t`. -/
theorem claim_C6_upgrade_path (pre post : List LockRequest) (old : LockRequest)
    (t : Int) (m : LockMode) (upg : Int) (held : List LockMode)
    (hpre : ∀ r ∈ pre, r.txnId ≠ t) (ht : old.txnId = t)
    (hg : old.granted = true) (hm : old.mode ≠ m) :
    (upg ≠ invalidTxnId →
      upgradeSegment (pre ++ old :: post) upg held t m = .abort .upgradeConflict)
    ∧ (upg = invalidTxnId → canLockUpgrade old.mode m = false →
      upgradeSegment (pre ++ old :: post) upg held t m = .abort .incompatibleUpgrade)
    ∧ (upg = invalidTxnId → canLockUpgrade old.mode m = true →
      upgradeSegment (pre ++ old :: post) upg held t m =
        .proceed
          ((pre ++ post).takeWhile (·.granted) ++
            ⟨t, m, false⟩ :: (pre ++ post).dropWhile (·.granted))
          t (held.erase old.mode)) := by
  have herase := eraseTxn_append_cons t pre post old hpre ht
  refine ⟨fun hupg => ?_, fun hupg hlat => ?_, fun hupg hlat => ?_⟩
  · simp [upgradeSegment, herase, hg, hm, hupg]
  · simp [upgradeSegment, herase, hg, hm, hupg, hlat]
  · simp [upgradeSegment, herase, hg, hm, hupg, hlat,
      insertBeforeFirstUngranted_eq]

/-- C6 witness: transaction 1 holds a granted `S` lock; requesting `X` with
nobody upgrading re-queues it as the sole (ungranted) request and records
transaction 1 as the upgrader. -/
theorem claim_C6_witness :
    upgradeSegment [⟨1, .S, true⟩] invalidTxnId [LockMode.S] 1 .X =
      .proceed [⟨1, .X, false⟩] 1 [] :=
  (claim_C6_upgrade_path [] [] ⟨1, .S, true⟩ 1 .X invalidTxnId [LockMode.S]
      (by simp) rfl rfl (by decide)).2.2 rfl rfl

/-- C7 counterexample: the claim says an identical-mode re-request is a
no-op that reports success; the code instead executes `return false;`
(part_007 lines 286–288 and 455–457), reporting failure. -/
theorem claim_C7_counterexample :
    upgradeSegment [⟨1, .S, true⟩] invalidTxnId [LockMode.S] 1 .S =
        .earlyReturn false ∧ false ≠ true := by
  decide

/-- C7 (amended): when the transaction already holds a granted request of
the very mode it re-requests, both `LockTable` and `LockRow` return
immediately with `false` — before any mutation of the queue, the
`upgrading_` id or the transaction's held-lock set (the `return false;`
precedes every write in the segment). -/
theorem claim_C7_identical_mode (pre post : List LockRequest) (old : LockRequest)
    (t : Int) (upg : Int) (held : List LockMode)
    (hpre : ∀ r ∈ pre, r.txnId ≠ t) (ht : old.txnId = t) (hg : old.granted = true) :
    upgradeSegment (pre ++ old :: post) upg held t old.mode = .earlyReturn false := by
  have herase := eraseTxn_append_cons t pre post old hpre ht
  simp [upgradeSegment, herase, hg]

/-- C7 witness: transaction 1 re-requests its granted `S` lock. -/
theorem claim_C7_witness :
    upgradeSegment [⟨1, .S, true⟩] invalidTxnId [LockMode.S] 1 .S = .earlyReturn false :=
  claim_C7_identical_mode [] [] ⟨1, .S, true⟩ 1 invalidTxnId [LockMode.S]
    (by simp) rfl rfl

theorem lookup_eraseNode_self (store : List (Nat × LRUKNode)) (f : Nat)
    (h : (store.map Prod.fst).Nodup) : (eraseNode store f).lookup f = none := by
  induction store with
  | nil => rfl
  | cons p ps ih =>
    simp only [List.map_cons, List.nodup_cons] at h
    simp only [eraseNode, List.eraseP_cons]
    by_cases hp : p.1 = f
    · simp only [hp, beq_self_eq_true, cond_true]
      rw [List.lookup_eq_none_iff]
      intro q hq
      have hmem : q.1 ∈ ps.map Prod.fst := List.mem_map_of_mem Prod.fst hq
      simp only [bne_iff_ne, ne_eq]
      intro hfq
      exact h.1 (by rw [hp, hfq]; exact hmem)
    · have hbe : (p.1 == f) = false := beq_eq_false_iff_ne.mpr hp
      simp only [hbe, cond_false]
      rw [List.lookup_cons]
      have hfb : (f == p.1) = false := beq_eq_false_iff_ne.mpr (fun hh => hp hh.symm)
      simp only [hfb]
      exact ih h.2

theorem not_mem_map_fst_eraseP (l : List (Nat × Nat)) (f : Nat)
    (h : (l.map Prod.fst).Nodup) :
    f ∉ (l.eraseP (fun q => q.1 == f)).map Prod.fst := by
  induction l with
  | nil => simp
  | cons q qs ih =>
    simp only [List.map_cons, List.nodup_cons] at h
    by_cases hq : q.1 = f
    · simp only [List.eraseP_cons, hq, beq_self_eq_true, cond_true]
      rw [← hq]
      exact h.1
    · have hbe : (q.1 == f) = false := beq_eq_false_iff_ne.mpr hq
      simp only [List.eraseP_cons, hbe, cond_false, List.map_cons, List.mem_cons]
      push_neg
      exact ⟨fun hh => hq hh.symm, ih h.2⟩

theorem evict_of_find?_none (s : LRUKReplacer)
    (h : (scanOrder s).find? (fun g => (getNode s.nodeStore g).evictable) = none) :
    evict s = none := by
  rw [scanOrder, List.find?_append, Option.or_eq_none] at h
  have htemp := h.1
  have hcache : s.cachePool.find? (fun p => (getNode s.nodeStore p.1).evictable) = none := by
    rw [List.find?_eq_none]
    intro p hp
    have := List.find?_eq_none.mp h.2 p.1 (List.mem_map_of_mem Prod.fst hp)
    simpa using this
  unfold evict
  split
  · rfl
  · rw [htemp, hcache]

theorem evict_of_find?_some (s : LRUKReplacer) (f : Nat) (hwf : ReplacerWF s)
    (h : (scanOrder s).find? (fun g => (getNode s.nodeStore g).evictable) = some f) :
    evict s = some (f, deleteFrame s f) := by
  obtain ⟨htn, hcn, hsn, hdisj, hzero⟩ := hwf
  have hsz : s.evictableSize ≠ 0 := by
    intro h0
    have hall := hzero h0
    rw [List.find?_eq_none.mpr (fun x hx => by simp [hall x hx])] at h
    exact Option.noConfusion h
  rw [scanOrder, List.find?_append] at h
  cases htemp : s.tempPool.find? (fun g => (getNode s.nodeStore g).evictable) with
  | some f₁ =>
    rw [htemp, Option.or_some] at h
    have hf : f₁ = f := by injection h
    rw [hf] at htemp
    have hmem : f ∈ s.tempPool := List.mem_of_find?_eq_some htemp
    have hnc : f ∉ s.cachePool.map Prod.fst := hdisj f hmem
    have hcache : s.cachePool.eraseP (fun q => q.1 == f) = s.cachePool := by
      apply List.eraseP_of_forall_not
      intro a ha
      simp only [Bool.not_eq_true, beq_eq_false_iff_ne, ne_eq]
      intro hh
      exact hnc (hh ▸ List.mem_map_of_mem Prod.fst ha)
    simp only [evict, if_neg hsz, htemp]
    simp only [deleteFrame, hcache]
  | none =>
    rw [htemp, Option.none_or] at h
    rw [List.find?_map] at h
    obtain ⟨p, hp, hpf⟩ := Option.map_eq_some'.mp h
    have hp' : s.cachePool.find? (fun q => (getNode s.nodeStore q.1).evictable) = some p := hp
    have hmem : p ∈ s.cachePool := List.mem_of_find?_eq_some hp'
    have hfc : f ∈ s.cachePool.map Prod.fst := hpf ▸ List.mem_map_of_mem Prod.fst hmem
    have hnt : f ∉ s.tempPool := fun hmt => hdisj f hmt hfc
    have herase : s.tempPool.erase f = s.tempPool := List.erase_of_not_mem hnt
    simp only [evict, if_neg hsz, htemp, hp']
    rw [hpf]
    simp only [deleteFrame, herase]

theorem not_mem_scanOrder_deleteFrame (s : LRUKReplacer) (f : Nat)
    (hwf : ReplacerWF s) : f ∉ scanOrder (deleteFrame s f) := by
  obtain ⟨htn, hcn, -, -, -⟩ := hwf
  rw [scanOrder, List.mem_append]
  push_neg
  exact ⟨htn.not_mem_erase, not_mem_map_fst_eraseP s.cachePool f hcn⟩

theorem mem_cacheInsert {x p : Nat × Nat} {l : List (Nat × Nat)}
    (h : x ∈ cacheInsert p l) : x = p ∨ x ∈ l := by
  induction l with
  | nil => simpa [cacheInsert] using h
  | cons q qs ih =>
    by_cases hlt : p.2 < q.2
    · simpa [cacheInsert, hlt] using h
    · simp only [cacheInsert, if_neg hlt, List.mem_cons] at h
      rcases h with h | h
      · exact Or.inr (by simp [h])
      · rcases ih h with h | h
        · exact Or.inl h
        · exact Or.inr (List.mem_cons_of_mem q h)

theorem cacheInsert_sorted (p : Nat × Nat) (l : List (Nat × Nat))
    (h : CacheSorted l) : CacheSorted (cacheInsert p l) := by
  induction l with
  | nil => simp [cacheInsert, CacheSorted]
  | cons q qs ih =>
    rw [CacheSorted, List.pairwise_cons] at h
    by_cases hlt : p.2 < q.2
    · rw [CacheSorted, cacheInsert, if_pos hlt]
      rw [List.pairwise_cons]
      refine ⟨?_, List.pairwise_cons.mpr h⟩
      intro b hb
      rcases List.mem_cons.mp hb with rfl | hb
      · exact le_of_lt hlt
      · exact le_trans (le_of_lt hlt) (h.1 b hb)
    · rw [CacheSorted, cacheInsert, if_neg hlt]
      rw [List.pairwise_cons]
      refine ⟨?_, ih h.2⟩
      intro b hb
      rcases mem_cacheInsert hb with rfl | hb
      · exact le_of_not_lt hlt
      · exact h.1 b hb

theorem recordAccess_cacheSorted (s : LRUKReplacer) (f : Nat) (s' : LRUKReplacer)
    (h : recordAccess s f = some s') (hs : CacheSorted s.cachePool) :
    CacheSorted s'.cachePool := by
  unfold recordAccess at h
  split at h
  · exact absurd h (by simp)
  · split at h
    · injection h with h
      subst h
      exact hs
    · dsimp only at h
      split at h
      · split at h
        · injection h with h
          subst h
          exact cacheInsert_sorted _ _ hs
        · injection h with h
          subst h
          exact hs
      · injection h with h
        subst h
        exact cacheInsert_sorted _ _ (hs.sublist (List.eraseP_sublist _))

/-- C3: `Evict` scans the young pool in insertion order and then the cache
pool in list order, returning the first evictable frame with all its state
deleted, and `none` exactly when no scanned frame is evictable; the cache
pool's ascending K-th-timestamp order is an invariant of `RecordAccess`;
and in the spec's literal scenario (`N = 3`, `K = 2`, accesses
`A,B,C,A,B,C`, all evictable) three successive evictions return `A`, `B`,
`C` and a fourth returns none. -/
theorem claim_C3_evict (s : LRUKReplacer) (f : Nat) (hwf : ReplacerWF s) :
    ((scanOrder s).find? (fun g => (getNode s.nodeStore g).evictable) = none →
      evict s = none)
    ∧ ((scanOrder s).find? (fun g => (getNode s.nodeStore g).evictable) = some f →
      evict s = some (f, deleteFrame s f)
      ∧ (deleteFrame s f).nodeStore.lookup f = none
      ∧ f ∉ scanOrder (deleteFrame s f))
    ∧ (∀ t t' : LRUKReplacer, ∀ g : Nat, recordAccess t g = some t' →
      CacheSorted t.cachePool → CacheSorted t'.cachePool)
    ∧ (lrukScenario = some lrukScenarioState
      ∧ evictedFrame lrukScenario = some 0
      ∧ evictedFrame (afterEvict lrukScenario) = some 1
      ∧ evictedFrame (afterEvict (afterEvict lrukScenario)) = some 2
      ∧ evictedFrame (afterEvict (afterEvict (afterEvict lrukScenario))) = none) := by
  refine ⟨evict_of_find?_none s, fun h => ?_, ?_, by decide⟩
  · exact ⟨evict_of_find?_some s f hwf h,
      lookup_eraseNode_self s.nodeStore f hwf.2.2.1,
      not_mem_scanOrder_deleteFrame s f hwf⟩
  · exact fun t t' g h hs => recordAccess_cacheSorted t g t' h hs

/-- C3 witness: the scenario state itself is well-formed, frame 0 heads
its scan order, and evicting it deletes its state. -/
theorem claim_C3_witness :
    evict lrukScenarioState = some (0, deleteFrame lrukScenarioState 0)
    ∧ (deleteFrame lrukScenarioState 0).nodeStore.lookup 0 = none
    ∧ 0 ∉ scanOrder (deleteFrame lrukScenarioState 0) :=
  (claim_C3_evict lrukScenarioState 0 (by decide)).2.1 (by decide)

/-- C8: the claim (and the spec, and the assertion's own failure message)
require `Remove` to succeed on an evictable frame and raise the assertion
on a non-evictable one; the code's `BUSTUB_ENSURE(GetEvictable() == false,
"Remove is called on a non-evictable frame")` is inverted.  On a tracked
evictable frame the call throws; on a tracked non-evictable frame it
silently removes all state and decrements the `size_t` evictable counter,
wrapping it from 0 to `2^64 − 1`. -/
theorem claim_C8_remove_inverted :
    ((recordAccess (initReplacer 3 2) 1).bind fun s =>
        (setEvictable s 1 true).map fun t => removeFrame t 1) =
      some .ensureViolation
    ∧ ((recordAccess (initReplacer 3 2) 1).map fun s => removeFrame s 1) =
      some (.ok ⟨2, 3, 1, [], [], [], 2 ^ 64 - 1⟩) := by
  decide

/-! ### Claims C1, C2 -/

/-- C1: the round-trip law fails on the code.  `Insert`'s duplicate check
reads `array_[index - 1]` without guarding `index = 0`, so inserting a key
below every key of its leaf compares the key against the page-header
bytes that precede the entry array.  With 8-byte integer keys the
preceding word is exactly the leaf header `(page_type_ = 1, size_ = s)`,
which reads as key `1 + s·2^32`: in a tree holding key `2^32 + 2` (header
word = `2^32 + 1`), `Insert(2^32 + 1, 10)` is rejected as a duplicate and
`GetValue(2^32 + 1)` then returns false, where the claim demands
`true` with value `10`.  The last two conjuncts evaluate the same call on
an identical leaf whose preceding word differs: the insert then succeeds
and the lookup returns the value — the out-of-bounds read alone decides
the outcome. -/
theorem claim_C1_oob_duplicate_check :
    treeInsert1 (some ⟨[(4294967298, 20)], 4, -1, (4294967297, 0)⟩) 4 4294967297 10 (0, 0) =
        some (false, some ⟨[(4294967298, 20)], 4, -1, (4294967297, 0)⟩)
    ∧ treeGetValue (some ⟨[(4294967298, 20)], 4, -1, (4294967297, 0)⟩) 4294967297 = none
    ∧ treeInsert1 (some ⟨[(4294967298, 20)], 4, -1, (7, 0)⟩) 4 4294967297 10 (0, 0) =
        some (true, some ⟨[(4294967297, 10), (4294967298, 20)], 4, -1, (7, 0)⟩)
    ∧ treeGetValue (some ⟨[(4294967297, 10), (4294967298, 20)], 4, -1, (7, 0)⟩) 4294967297 =
        some 10 := by
  decide

/-- C2: after a successful leaf insert, a split is triggered exactly when
the post-insert size equals `max_size`; the split moves the upper
`max_size − min_size` entries to the freshly initialised leaf, the new
leaf inherits the old leaf's next-pointer while the old leaf's
next-pointer becomes the new page id, and the risen key is the first key
of the new leaf (= the entry at index `min_size` of the post-insert
leaf). -/
theorem claim_C2_leaf_split (leaf leaf' : LeafData) (key v newPid : Int)
    (junk : Int × Int) (hmax : 2 ≤ leaf.maxSize)
    (hins : leafInsert leaf key v = some leaf') :
    ((insertIntoLeafStep leaf key v newPid junk).isSplit = true ↔
      leafSize leaf' = leaf.maxSize)
    ∧ leaf'.maxSize = leaf.maxSize ∧ leaf'.next = leaf.next
    ∧ (leafSize leaf' ≠ leaf.maxSize →
      insertIntoLeafStep leaf key v newPid junk = .plain leaf')
    ∧ (leafSize leaf' = leaf.maxSize →
      insertIntoLeafStep leaf key v newPid junk =
        .split
          { leaf' with
            entries := leaf'.entries.take (leafMinSize leaf').toNat
            next := newPid }
          ⟨leaf'.entries.drop (leafMinSize leaf').toNat, leaf'.maxSize, leaf'.next, junk⟩
          (leaf'.entries.getD (leafMinSize leaf').toNat junk).1
      ∧ (leaf'.entries.drop (leafMinSize leaf').toNat).length =
          (leaf.maxSize - leafMinSize leaf').toNat
      ∧ leaf'.entries.take (leafMinSize leaf').toNat ++
          leaf'.entries.drop (leafMinSize leaf').toNat = leaf'.entries
      ∧ leaf'.entries.drop (leafMinSize leaf').toNat ≠ []) := by
  have hpres : leaf'.maxSize = leaf.maxSize ∧ leaf'.next = leaf.next := by
    unfold leafInsert at hins
    dsimp only at hins
    split at hins
    · exact absurd hins (by simp)
    · injection hins with hins
      subst hins
      exact ⟨rfl, rfl⟩
  refine ⟨?_, hpres.1, hpres.2, fun hne => ?_, fun hsp => ?_⟩
  · simp only [insertIntoLeafStep, hins]
    constructor
    · intro h
      by_cases hsz : leafSize leaf' = leaf'.maxSize
      · rw [← hpres.1]
        exact hsz
      · rw [if_neg hsz] at h
        exact absurd h (by simp [InsertStepResult.isSplit])
    · intro h
      have hsz : leafSize leaf' = leaf'.maxSize := by rw [hpres.1]; exact h
      rw [if_pos hsz]
      rfl
  · simp only [insertIntoLeafStep, hins]
    rw [if_neg (fun hh => hne (hpres.1 ▸ hh))]
  · have hsz : leafSize leaf' = leaf'.maxSize := by rw [hpres.1]; exact hsp
    have hlen : (leaf'.entries.length : Int) = leaf'.maxSize := hsz
    have hm : leafMinSize leaf' = (leaf'.maxSize + 1) / 2 := rfl
    have hmax' : 2 ≤ leaf'.maxSize := hpres.1 ▸ hmax
    have hminlt : (leafMinSize leaf').toNat < leaf'.entries.length := by omega
    have hdroplen : (leaf'.entries.drop (leafMinSize leaf').toNat).length =
        (leaf.maxSize - leafMinSize leaf').toNat := by
      rw [List.length_drop]
      rw [hpres.1] at hlen
      have hm' : leafMinSize leaf' = (leaf.maxSize + 1) / 2 := by rw [hm, hpres.1]
      omega
    have htakeall :
        ((leaf'.entries.drop (leafMinSize leaf').toNat).take
          (leaf'.maxSize - leafMinSize leaf').toNat) =
          leaf'.entries.drop (leafMinSize leaf').toNat := by
      apply List.take_of_length_le
      rw [hdroplen, hpres.1]
    have hnil : leaf'.entries.drop (leafMinSize leaf').toNat ≠ [] := by
      intro hnil
      rw [List.drop_eq_nil_iff] at hnil
      omega
    refine ⟨?_, hdroplen, List.take_append_drop _ _, hnil⟩
    simp only [insertIntoLeafStep, hins]
    rw [if_pos hsz]
    simp only [leafSplit, leafInit]
    rw [htakeall]
    have hrisen : (leafEntry
        ⟨leaf'.entries.drop (leafMinSize leaf').toNat, leaf'.maxSize, -1, junk⟩ 0).1 =
        (leaf'.entries.getD (leafMinSize leaf').toNat junk).1 := by
      simp only [leafEntry]
      rw [if_neg (by omega)]
      simp only [List.getD_eq_getElem?_getD, Int.toNat_zero, List.getElem?_drop,
        Nat.add_zero]
    rw [hrisen]

/-- C2 witness: a leaf `[1, 2, 3]` with `max_size = 4` and next-pointer 9;
inserting key 4 fills it to `max_size`, splitting off `[3, 4]` to new page
77 with risen key 3. -/
theorem claim_C2_witness :
    insertIntoLeafStep ⟨[(1, 10), (2, 20), (3, 30)], 4, 9, (0, 0)⟩ 4 40 77 (5, 5) =
        .split ⟨[(1, 10), (2, 20)], 4, 77, (0, 0)⟩ ⟨[(3, 30), (4, 40)], 4, 9, (5, 5)⟩ 3
      ∧ ([(3, 30), (4, 40)] : List (Int × Int)).length = 2
      ∧ [(1, 10), (2, 20)] ++ [(3, 30), (4, 40)] =
          ([(1, 10), (2, 20), (3, 30), (4, 40)] : List (Int × Int))
      ∧ ([(3, 30), (4, 40)] : List (Int × Int)) ≠ [] :=
  (claim_C2_leaf_split ⟨[(1, 10), (2, 20), (3, 30)], 4, 9, (0, 0)⟩
      ⟨[(1, 10), (2, 20), (3, 30), (4, 40)], 4, 9, (0, 0)⟩ 4 40 77 (5, 5)
      (by decide) (by decide)).2.2.2.2 (by decide)

/-! ### Helper lemmas for the buffer pool manager -/

theorem getD_set_self {α : Type} (l : List α) (i : Nat) (a d : α)
    (h : i < l.length) : (l.set i a).getD i d = a := by
  simp [List.getD_eq_getElem?_getD, List.getElem?_set_self h]

theorem getD_set_ne {α : Type} (l : List α) (i j : Nat) (a d : α)
    (h : i ≠ j) : (l.set i a).getD j d = l.getD j d := by
  simp [List.getD_eq_getElem?_getD, List.getElem?_set_ne h]

theorem setEvictable_isSome (s : LRUKReplacer) (f : Nat) (b : Bool)
    (h : f ≤ s.replacerSize) : (setEvictable s f b).isSome := by
  unfold setEvictable
  rw [if_neg (not_not_intro h)]
  cases hl : s.nodeStore.lookup f
  · rfl
  · dsimp only
    split
    · rfl
    · split
      · rfl
      · rfl

theorem recordAccess_isSome (s : LRUKReplacer) (f : Nat)
    (h : f ≤ s.replacerSize) : (recordAccess s f).isSome := by
  unfold recordAccess
  rw [if_neg (not_not_intro h)]
  cases hl : s.nodeStore.lookup f
  · rfl
  · dsimp only
    split
    · split
      · rfl
      · rfl
    · rfl

theorem recordAccess_replacerSize (s : LRUKReplacer) (f : Nat) (r : LRUKReplacer)
    (h : recordAccess s f = some r) : r.replacerSize = s.replacerSize := by
  unfold recordAccess at h
  split at h
  · exact absurd h (by simp)
  · split at h
    · injection h with h
      subst h
      rfl
    · dsimp only at h
      split at h
      · split at h
        · injection h with h
          subst h
          rfl
        · injection h with h
          subst h
          rfl
      · injection h with h
        subst h
        rfl

/-! ### Claims C4, C10, C9 -/

/-- C4 counterexample: the claim says `UnpinPage(p, false)` never clears a
dirty flag that was already set; but the code assigns
`page_ptr->is_dirty_ = is_dirty` unconditionally, so unpinning a dirty
resident page with `dirty = false` clears the flag. -/
theorem claim_C4_counterexample :
    ((unpinPage ⟨[⟨5, 1, true, .free, .raw 0⟩], [(5, 0)], [], initReplacer 1 2, 6, [], [], []⟩
        5 false).map fun r => (r.1, (getFrame r.2 0).isDirty)) = some (true, false)
    ∧ false ≠ true := by
  decide

/-- C4 (amended): for a resident page with positive pin count,
`UnpinPage` returns true, decrements the pin count, *assigns* the frame's
dirty flag from the argument (so a false argument clears a set flag), and
invokes `SetEvictable(frame, true)` on the replacer exactly when the pin
count reaches 0. -/
theorem claim_C4_unpin (s : BufferPoolManager) (pid : Int) (dirty : Bool) (fr : Nat)
    (h1 : s.pageTable.lookup pid = some fr)
    (h2 : 0 < (getFrame s fr).pinCount)
    (h3 : fr ≤ s.replacer.replacerSize)
    (h4 : fr < s.frames.length) :
    ((unpinPage s pid dirty).map Prod.fst = some true)
    ∧ (((unpinPage s pid dirty).map fun r => (getFrame r.2 fr).pinCount) =
        some ((getFrame s fr).pinCount - 1))
    ∧ (((unpinPage s pid dirty).map fun r => (getFrame r.2 fr).isDirty) = some dirty)
    ∧ ((getFrame s fr).pinCount - 1 = 0 →
        ((unpinPage s pid dirty).map fun r => some r.2.replacer) =
          some (setEvictable s.replacer fr true))
    ∧ ((getFrame s fr).pinCount - 1 ≠ 0 →
        ((unpinPage s pid dirty).map fun r => r.2.replacer) = some s.replacer) := by
  unfold unpinPage
  rw [h1]
  dsimp only
  rw [if_neg (by omega)]
  by_cases hz : (getFrame s fr).pinCount - 1 = 0
  · obtain ⟨repl, hrepl⟩ :=
      Option.isSome_iff_exists.mp (setEvictable_isSome s.replacer fr true h3)
    rw [if_pos hz, hrepl]
    refine ⟨rfl, ?_, ?_, fun _ => by simp [hrepl], fun hnz => absurd hz hnz⟩
    · simp [getFrame, List.getElem?_set_self h4]
    · simp [getFrame, List.getElem?_set_self h4]
  · rw [if_neg hz]
    refine ⟨rfl, ?_, ?_, fun hzz => absurd hzz hz, fun _ => rfl⟩
    · simp [getFrame, List.getElem?_set_self h4]
    · simp [getFrame, List.getElem?_set_self h4]

/-- C4 witness: page 5 resident in frame 0 with pin count 2. -/
theorem claim_C4_witness :
    ((unpinPage ⟨[⟨5, 2, false, .free, .raw 0⟩], [(5, 0)], [], initReplacer 1 2, 6, [], [], []⟩
        5 true).map Prod.fst = some true)
    ∧ (((unpinPage ⟨[⟨5, 2, false, .free, .raw 0⟩], [(5, 0)], [], initReplacer 1 2, 6, [], [], []⟩
        5 true).map fun r => (getFrame r.2 0).pinCount) = some 1)
    ∧ (((unpinPage ⟨[⟨5, 2, false, .free, .raw 0⟩], [(5, 0)], [], initReplacer 1 2, 6, [], [], []⟩
        5 true).map fun r => (getFrame r.2 0).isDirty) = some true)
    ∧ ((1 : Int) = 0 →
        ((unpinPage ⟨[⟨5, 2, false, .free, .raw 0⟩], [(5, 0)], [], initReplacer 1 2, 6, [], [], []⟩
          5 true).map fun r => some r.2.replacer) =
          some (setEvictable (initReplacer 1 2) 0 true))
    ∧ ((1 : Int) ≠ 0 →
        ((unpinPage ⟨[⟨5, 2, false, .free, .raw 0⟩], [(5, 0)], [], initReplacer 1 2, 6, [], [], []⟩
          5 true).map fun r => r.2.replacer) = some (initReplacer 1 2)) :=
  claim_C4_unpin ⟨[⟨5, 2, false, .free, .raw 0⟩], [(5, 0)], [], initReplacer 1 2, 6, [], [], []⟩
    5 true 0 (by decide) (by decide) (by decide) (by decide)

/-- C10: for a page id absent from the page table, `FetchPageRead` and
`FetchPageWrite` return the empty guard `{this, nullptr}` with the state
bit-for-bit unchanged — no disk read (the read log is part of the state),
no latch transition, no pin increment — whereas `FetchPage` on the same
non-resident page id (given an available free frame) loads the page from
disk into the frame, appends the id to the read log, and increments the
frame's pin count. -/
theorem claim_C10_guarded_fetch (s : BufferPoolManager) (pid : Int)
    (h : s.pageTable.lookup pid = none) :
    fetchPageRead s pid = some (none, s)
    ∧ fetchPageWrite s pid = some (none, s)
    ∧ (∀ fr rest, s.freeList = fr :: rest → fr ≤ s.replacer.replacerSize →
        fr < s.frames.length →
        ((fetchPage s pid).map Prod.fst = some (some fr))
        ∧ (((fetchPage s pid).map fun r => r.2.readLog) = some (pid :: s.readLog))
        ∧ (((fetchPage s pid).map fun r => (getFrame r.2 fr).pinCount) =
            some ((getFrame s fr).pinCount + 1))
        ∧ (((fetchPage s pid).map fun r => (getFrame r.2 fr).pageId) = some pid)) := by
  refine ⟨by unfold fetchPageRead; rw [h], by unfold fetchPageWrite; rw [h], ?_⟩
  intro fr rest hfl hbound hlen
  obtain ⟨r1, hr1⟩ :=
    Option.isSome_iff_exists.mp (recordAccess_isSome s.replacer fr hbound)
  have hsz1 : fr ≤ r1.replacerSize := by
    rw [recordAccess_replacerSize s.replacer fr r1 hr1]
    exact hbound
  obtain ⟨r2, hr2⟩ :=
    Option.isSome_iff_exists.mp (setEvictable_isSome r1 fr false hsz1)
  refine ⟨?_, ?_, ?_, ?_⟩ <;>
    simp [fetchPage, h, hfl, hr1, hr2, getFrame, List.getElem?_set_self hlen]

/-- C10 witness: a one-frame pool with an empty page table, page 3 on
disk, frame 0 free. -/
theorem claim_C10_witness :
    fetchPageRead ⟨[⟨-1, 0, false, .free, .raw 0⟩], [], [0], initReplacer 1 2, 0,
        [(3, .raw 42)], [], []⟩ 3 =
      some (none, ⟨[⟨-1, 0, false, .free, .raw 0⟩], [], [0], initReplacer 1 2, 0,
        [(3, .raw 42)], [], []⟩)
    ∧ fetchPageWrite ⟨[⟨-1, 0, false, .free, .raw 0⟩], [], [0], initReplacer 1 2, 0,
        [(3, .raw 42)], [], []⟩ 3 =
      some (none, ⟨[⟨-1, 0, false, .free, .raw 0⟩], [], [0], initReplacer 1 2, 0,
        [(3, .raw 42)], [], []⟩)
    ∧ ((fetchPage ⟨[⟨-1, 0, false, .free, .raw 0⟩], [], [0], initReplacer 1 2, 0,
          [(3, .raw 42)], [], []⟩ 3).map Prod.fst = some (some 0)
      ∧ ((fetchPage ⟨[⟨-1, 0, false, .free, .raw 0⟩], [], [0], initReplacer 1 2, 0,
          [(3, .raw 42)], [], []⟩ 3).map fun r => r.2.readLog) = some [3]
      ∧ ((fetchPage ⟨[⟨-1, 0, false, .free, .raw 0⟩], [], [0], initReplacer 1 2, 0,
          [(3, .raw 42)], [], []⟩ 3).map fun r => (getFrame r.2 0).pinCount) = some 1
      ∧ ((fetchPage ⟨[⟨-1, 0, false, .free, .raw 0⟩], [], [0], initReplacer 1 2, 0,
          [(3, .raw 42)], [], []⟩ 3).map fun r => (getFrame r.2 0).pageId) = some 3) :=
  ⟨(claim_C10_guarded_fetch ⟨[⟨-1, 0, false, .free, .raw 0⟩], [], [0], initReplacer 1 2, 0,
      [(3, .raw 42)], [], []⟩ 3 (by decide)).1,
   (claim_C10_guarded_fetch ⟨[⟨-1, 0, false, .free, .raw 0⟩], [], [0], initReplacer 1 2, 0,
      [(3, .raw 42)], [], []⟩ 3 (by decide)).2.1,
   (claim_C10_guarded_fetch ⟨[⟨-1, 0, false, .free, .raw 0⟩], [], [0], initReplacer 1 2, 0,
      [(3, .raw 42)], [], []⟩ 3 (by decide)).2.2 0 [] rfl (by decide) (by decide)⟩

/-- C9 counterexample: stepping the iterator across a leaf boundary (old
leaf pinned once, next leaf unpinned) leaves the pin counts unchanged —
the next leaf ends at pin 0 and the old leaf keeps pin 1 — because the
`FetchPageBasic` temporary guard unpins the next leaf as soon as the
statement ends and the old leaf is never unpinned; the claim demands pins
(new, old) = (1, 0). -/
theorem claim_C9_counterexample :
    ((iterNext iterDemoBPM ⟨0, 1⟩).map fun r =>
        (r.1, (getFrame r.2 1).pinCount, (getFrame r.2 0).pinCount)) =
      some (⟨1, 0⟩, 0, 1)
    ∧ ¬((0 : Int) = 1 ∧ (1 : Int) = 0) := by
  decide

/-- C9 (amended): `IsEnd()` holds exactly when the current leaf's
next-pointer is `INVALID_PAGE_ID` and the slot equals the leaf size, and
`operator++` is then a no-op; otherwise the slot advances, and upon
reaching the end of a leaf with a valid next-pointer the iterator moves
to the next leaf's frame at slot 0 while fetching and *immediately
unpinning* the next leaf (the temporary guard), so the pin counts of both
the next and the old leaf are unchanged by the step. -/
theorem claim_C9_iterator (s : BufferPoolManager) (it : IndexIterator) (l : LeafData)
    (hleaf : (getFrame s it.frame).data = .leaf l) :
    (iterIsEnd s it = true ↔ (l.next = -1 ∧ it.index = leafSize l))
    ∧ (iterIsEnd s it = true → iterNext s it = some (it, s))
    ∧ (iterIsEnd s it = false → ¬(it.index + 1 = leafSize l ∧ l.next ≠ -1) →
        iterNext s it = some (⟨it.frame, it.index + 1⟩, s))
    ∧ (∀ fr2, iterIsEnd s it = false → it.index + 1 = leafSize l → l.next ≠ -1 →
        s.pageTable.lookup l.next = some fr2 →
        fr2 < s.frames.length → fr2 ≠ it.frame →
        (getFrame s fr2).pageId = l.next →
        0 ≤ (getFrame s fr2).pinCount →
        fr2 ≤ s.replacer.replacerSize →
        ((iterNext s it).map Prod.fst = some ⟨fr2, 0⟩)
        ∧ (((iterNext s it).map fun r => (getFrame r.2 fr2).pinCount) =
            some ((getFrame s fr2).pinCount))
        ∧ (((iterNext s it).map fun r => (getFrame r.2 it.frame).pinCount) =
            some ((getFrame s it.frame).pinCount))) := by
  have hl : iterLeaf s it = l := by
    simp [iterLeaf, hleaf]
  refine ⟨by simp [iterIsEnd, hl], fun hend => by unfold iterNext; rw [if_pos hend],
    fun hend hcond => ?_, fun fr2 hend hidx hnext hlk hlen hne hpg hpin hbound => ?_⟩
  · unfold iterNext
    rw [if_neg (by simp [hend]), hl, if_neg hcond]
  · have hgf1 : getFrame
        { s with frames := (s.frames.set fr2
            ⟨(getFrame s fr2).pageId, (getFrame s fr2).pinCount + 1,
              (getFrame s fr2).isDirty, (getFrame s fr2).latch, (getFrame s fr2).data⟩) }
          fr2 =
        ⟨(getFrame s fr2).pageId, (getFrame s fr2).pinCount + 1,
          (getFrame s fr2).isDirty, (getFrame s fr2).latch, (getFrame s fr2).data⟩ := by
      simp [getFrame, List.getElem?_set_self hlen]
    have hstep : iterNext s it =
        (unpinPage
          { s with frames := (s.frames.set fr2
              ⟨(getFrame s fr2).pageId, (getFrame s fr2).pinCount + 1,
                (getFrame s fr2).isDirty, (getFrame s fr2).latch, (getFrame s fr2).data⟩) }
          l.next false).map fun u => (⟨fr2, 0⟩, u.2) := by
      unfold iterNext
      rw [if_neg (by simp [hend]), hl, if_pos ⟨hidx, hnext⟩]
      simp only [fetchPage, hlk, Option.some_bind]
      rw [hgf1]
      dsimp only
      rw [hpg]
    have hup : unpinPage
        { s with frames := (s.frames.set fr2
            ⟨(getFrame s fr2).pageId, (getFrame s fr2).pinCount + 1,
              (getFrame s fr2).isDirty, (getFrame s fr2).latch, (getFrame s fr2).data⟩) }
        l.next false =
        (if (getFrame s fr2).pinCount + 1 - 1 = 0 then setEvictable s.replacer fr2 true
         else some s.replacer).map fun repl =>
          (true, { s with
            frames := ((s.frames.set fr2
                ⟨(getFrame s fr2).pageId, (getFrame s fr2).pinCount + 1,
                  (getFrame s fr2).isDirty, (getFrame s fr2).latch,
                  (getFrame s fr2).data⟩).set fr2
              ⟨(getFrame s fr2).pageId, (getFrame s fr2).pinCount + 1 - 1, false,
                (getFrame s fr2).latch, (getFrame s fr2).data⟩)
            replacer := repl }) := by
      unfold unpinPage
      dsimp only
      rw [hlk]
      dsimp only
      rw [hgf1]
      dsimp only
      rw [if_neg (by omega)]
    rw [hstep, hup]
    have hframes : ∀ q : BPMFrame,
        ((s.frames.set fr2
          ⟨(getFrame s fr2).pageId, (getFrame s fr2).pinCount + 1,
            (getFrame s fr2).isDirty, (getFrame s fr2).latch,
            (getFrame s fr2).data⟩).set fr2 q) =
        s.frames.set fr2 q := fun q => List.set_set ..
    by_cases hz : (getFrame s fr2).pinCount + 1 - 1 = 0
    · obtain ⟨r, hr⟩ :=
        Option.isSome_iff_exists.mp (setEvictable_isSome s.replacer fr2 true hbound)
      rw [if_pos hz, hr]
      refine ⟨rfl, ?_, ?_⟩
      · simp [getFrame, hframes, List.getElem?_set_self hlen]
      · simp [getFrame, hframes, List.getElem?_set_ne hne]
    · rw [if_neg hz]
      refine ⟨rfl, ?_, ?_⟩
      · simp [getFrame, hframes, List.getElem?_set_self hlen]
      · simp [getFrame, hframes, List.getElem?_set_ne hne]

/-- C9 witness: the boundary step on the two-leaf pool leaves both pin
counts as they were. -/
theorem claim_C9_witness :
    ((iterNext iterDemoBPM ⟨0, 1⟩).map Prod.fst = some ⟨1, 0⟩)
    ∧ (((iterNext iterDemoBPM ⟨0, 1⟩).map fun r => (getFrame r.2 1).pinCount) =
        some ((getFrame iterDemoBPM 1).pinCount))
    ∧ (((iterNext iterDemoBPM ⟨0, 1⟩).map fun r => (getFrame r.2 0).pinCount) =
        some ((getFrame iterDemoBPM 0).pinCount)) :=
  (claim_C9_iterator iterDemoBPM ⟨0, 1⟩ ⟨[(1, 10), (2, 20)], 4, 6, (0, 0)⟩
      (by decide)).2.2.2 1 (by decide) (by decide) (by decide) (by decide)
    (by decide) (by decide) (by decide) (by decide) (by decide)

end BusTub
